import Mathlib

/-!
Verification development for the defect-correction engine of this pymatgen
fork (`pymatgen/analysis/defects/corrections.py` and
`pymatgen/analysis/defects/compatibility.py`).

The Python code is shallowly embedded over the rationals: every float is
modelled as a `ℚ`, fallible code returns `Except String`, and the numerical
collaborators declared external by the design document (FFT, quadrature,
special functions, lattice geometry, the `utils` helpers `QModel`,
`converge`, `generate_R_and_G_vecs`, `tune_for_gamma`, and the unit
conversion constants, none of which are part of the analysed sources) are
either modelled from the specification or abstracted as parameters.
-/

namespace PymatgenDefects

/-- Floor of a rational number, computed by Euclidean integer division (the
denominator is positive, so this rounds toward negative infinity). -/
def ratFloor (q : ℚ) : ℤ := Int.ediv q.num q.den

/-- Ceiling of a rational number. -/
def ratCeil (q : ℚ) : ℤ := -ratFloor (-q)

/-- Truncation toward zero: Python `int()` applied to a rational value. -/
def pyInt (q : ℚ) : ℤ := if 0 ≤ q then ratFloor q else -ratFloor (-q)

/-- Round half to even at integer resolution, as Python `round` does. -/
def roundHalfEven (x : ℚ) : ℤ :=
  let f : ℤ := ratFloor x
  let r : ℚ := x - (f : ℚ)
  if r < 1/2 then f
  else if 1/2 < r then f + 1
  else if f % 2 = 0 then f else f + 1

/-- Python `round(x, 6)`, used by `FreysoldtCorrection.perform_es_corr`. -/
def pyRound6 (x : ℚ) : ℚ := ((roundHalfEven (x * 1000000) : ℤ) : ℚ) / 1000000

/-- `np.mean` of a list (sum over length).  Every use in the embedded code is
on a nonempty list; numpy would yield NaN on an empty one. -/
def npMean (l : List ℚ) : ℚ := l.sum / (l.length : ℚ)

/-- `np.max` of an array; numpy raises on an empty one. -/
def npMax : List ℚ → Except String ℚ
  | [] => .error "zero-size array to reduction operation maximum"
  | h :: t => .ok (t.foldl max h)

/-- Python list indexing, with negative-index wraparound and IndexError. -/
def pyIndex {α : Type} (l : List α) (i : ℤ) : Except String α :=
  if 0 ≤ i then
    if h : i.toNat < l.length then .ok (l.get ⟨i.toNat, h⟩) else .error "IndexError"
  else
    if h : (i + (l.length : ℤ)).toNat < l.length ∧ 0 ≤ i + (l.length : ℤ) then
      .ok (l.get ⟨(i + (l.length : ℤ)).toNat, h.1⟩)
    else .error "IndexError"

/-- `np.roll` (right rotation by `k`, modulo the length). -/
def pyRoll {α : Type} (l : List α) (k : ℤ) : List α :=
  if l.length = 0 then l
  else
    let s : ℕ := (l.length : ℤ).toNat - (k % (l.length : ℤ)).toNat
    l.drop s ++ l.take s

/-- `np.arange(a, b, 1, dtype=int)`: floats `a, a+1, ...` strictly below `b`,
each cast to an integer by truncation toward zero. -/
def arangeInt (a b : ℚ) : List ℤ :=
  (List.range (ratCeil (b - a)).toNat).map (fun k => pyInt (a + (k : ℚ)))

/-- Whether an `Except` value is an error. -/
def exceptIsErr {α : Type} : Except String α → Bool
  | .error _ => true
  | .ok _ => false

/-- Left-to-right effectful map over a list: the first raised error
propagates, as in a Python loop. -/
def exceptMapList {α β : Type} (f : α → Except String β) : List α → Except String (List β)
  | [] => .ok []
  | a :: as =>
    match f a with
    | .error e => .error e
    | .ok b =>
      match exceptMapList f as with
      | .error e => .error e
      | .ok bs => .ok (b :: bs)

/-- Cartesian 3-vector over the rationals. -/
structure V3 where
  x : ℚ
  y : ℚ
  z : ℚ
deriving DecidableEq

def V3.zero : V3 := ⟨0, 0, 0⟩

def V3.add (a b : V3) : V3 := ⟨a.x + b.x, a.y + b.y, a.z + b.z⟩

def V3.sub (a b : V3) : V3 := ⟨a.x - b.x, a.y - b.y, a.z - b.z⟩

def V3.smul (c : ℚ) (a : V3) : V3 := ⟨c * a.x, c * a.y, c * a.z⟩

def V3.dot (a b : V3) : ℚ := a.x * b.x + a.y * b.y + a.z * b.z

def V3.cross (a b : V3) : V3 :=
  ⟨a.y * b.z - a.z * b.y, a.z * b.x - a.x * b.z, a.x * b.y - a.y * b.x⟩

/-- Component access by axis number (axes are 0, 1, 2 in every caller). -/
def V3.get (a : V3) : ℕ → ℚ
  | 0 => a.x
  | 1 => a.y
  | _ => a.z

/-- 3x3 matrix over the rationals, stored by rows. -/
structure M3 where
  r0 : V3
  r1 : V3
  r2 : V3
deriving DecidableEq

def M3.mulVec (m : M3) (v : V3) : V3 := ⟨m.r0.dot v, m.r1.dot v, m.r2.dot v⟩

def M3.det (m : M3) : ℚ := m.r0.dot (m.r1.cross m.r2)

/-- `np.linalg.inv m` applied to a vector: the columns of the inverse are the
row cross products divided by the determinant. -/
def M3.invMulVec (m : M3) (v : V3) : V3 :=
  let u0 := m.r1.cross m.r2
  let u1 := m.r2.cross m.r0
  let u2 := m.r0.cross m.r1
  V3.smul (1 / m.det) ((V3.smul v.x u0).add ((V3.smul v.y u1).add (V3.smul v.z u2)))

def M3.identity : M3 := ⟨⟨1, 0, 0⟩, ⟨0, 1, 0⟩, ⟨0, 0, 1⟩⟩

/-- Modelled from the spec: `ang_to_bohr` unit conversion constant from
`pymatgen.analysis.defects.utils`, which is not under the analysed sources. -/
def ang_to_bohr : ℚ := 1.8897

/-- Modelled from the spec: `hart_to_ev` unit conversion constant from
`pymatgen.analysis.defects.utils`, not under the analysed sources. -/
def hart_to_ev : ℚ := 27.2114

/-- The double-precision value of `np.pi` (an external numerical constant). -/
def np_pi : ℚ := 3.141592653589793

/-- Modelled from the spec: `kumagai_to_V` unit conversion constant from
`pymatgen.analysis.defects.utils`, not under the analysed sources. -/
def kumagai_to_V : ℚ := 180.9512739

/-- Modelled from the spec (section 4.1): the reciprocal-space model charge
density `QModel` of `utils`, a pure function of the squared reciprocal vector
magnitude together with its explicit zero-frequency limit. -/
structure QModel where
  rho_rec : ℚ → ℚ
  rho_rec_limit0 : ℚ

/-- Modelled from the spec (section 4.2): `converge` evaluates `f` at
increasing cutoffs until two successive evaluations differ by less than the
tolerance, failing fatally once the maximum cutoff is exhausted.  The fuel
is the number of steps available below the maximum cutoff. -/
def convergeAux (f : ℚ → ℚ) (step tol : ℚ) : ℕ → ℚ → ℚ → Except String ℚ
  | 0, _, _ => .error "ConvergenceFailure: maximum cutoff exhausted"
  | n + 1, x, prev =>
    let cur := f x
    if |cur - prev| < tol then .ok cur
    else convergeAux f step tol n (x + step) cur

/-- Modelled from the spec (section 4.2): top-level convergence driver. -/
def converge (f : ℚ → ℚ) (step tol maxCutoff : ℚ) : Except String ℚ :=
  convergeAux f step tol (pyInt (maxCutoff / step)).toNat (step + step) (f step)

/-- Lattice data as supplied by the external crystallography collaborator
(spec section 6): cartesian lattice vectors (rows of `lattice.matrix`, in
angstrom), the lattice constants `abc`, the reciprocal lattice constants and
the cell volume. -/
structure FLattice where
  a1 : V3
  a2 : V3
  a3 : V3
  abc : V3
  recAbc : V3
  volume : ℚ
deriving DecidableEq

/-- `lattice.get_cartesian_coords` for fractional coordinates `f`. -/
def FLattice.cart (lat : FLattice) (f : V3) : V3 :=
  (V3.smul f.x lat.a1).add ((V3.smul f.y lat.a2).add (V3.smul f.z lat.a3))

/-- External numerical collaborators consumed by the Freysoldt correction
(spec section 6): the quadrature of `rho_rec(g^2)^2` between two bounds, the
energy-to-wavevector conversion of `utils`, the squared reciprocal vector
enumeration of `utils`, and the one-dimensional discrete Fourier transform
acting on lists of (real, imaginary) pairs. -/
structure FreyEnv where
  qm : QModel
  quadRho : ℚ → ℚ → ℚ
  eV_to_k : ℚ → ℚ
  recipVecsSq : V3 → V3 → V3 → ℚ → List ℚ
  fft : List (ℚ × ℚ) → List (ℚ × ℚ)

namespace FreysoldtCorrection

/-- `e_iso` of `FreysoldtCorrection.perform_es_corr`: the isolated-charge
energy at energy cutoff `encut` (the quadrature is the external
`scipy.integrate.quad` of `rho_rec(g*g)**2` from `step` to `gcut`). -/
def e_iso (E : FreyEnv) (q step : ℚ) (encut : ℚ) : ℚ :=
  E.quadRho step (E.eV_to_k encut) * q ^ 2 / np_pi

/-- `e_per` of `FreysoldtCorrection.perform_es_corr`: the periodic-lattice
reciprocal sum at energy cutoff `encut`. -/
def e_per (E : FreyEnv) (lat : FLattice) (q : ℚ) (encut : ℚ) : ℚ :=
  let a1 := V3.smul ang_to_bohr lat.a1
  let a2 := V3.smul ang_to_bohr lat.a2
  let a3 := V3.smul ang_to_bohr lat.a3
  let vol := a1.dot (a2.cross a3)
  let s := ((E.recipVecsSq a1 a2 a3 encut).map (fun g2 => E.qm.rho_rec g2 ^ 2 / g2)).sum
  s * (q ^ 2 * 2 * pyRound6 np_pi / vol) + q ^ 2 * 4 * pyRound6 np_pi * E.qm.rho_rec_limit0 / vol

/-- `FreysoldtCorrection.perform_es_corr` (corrections.py lines 137-177):
converge `e_iso` and `e_per` with `converge`, then return
`round((eiso - eper) / dielectric * hart_to_ev, 6)`. -/
def perform_es_corr (E : FreyEnv) (lat : FLattice) (dielectric q madetol energy_cutoff : ℚ) :
    Except String ℚ := do
  let eiso ← converge (e_iso E q (1/10000)) 5 madetol energy_cutoff
  let eper ← converge (e_per E lat q) 5 madetol energy_cutoff
  .ok (pyRound6 ((eiso - eper) / dielectric * hart_to_ev))

/-- The reciprocal-space model potential array `v_G` of
`FreysoldtCorrection.perform_pot_corr` (corrections.py lines 239-244).  All
entries are real: `v_G[0] = 4*pi*(-q)/dielectric * rho_rec_limit0`, the tail
is `4*pi/(dielectric*g2) * (-q) * rho_rec(g2)` over the rolled integer
`arange` grid scaled by `dg`, and the midpoint is zeroed for an even grid. -/
def build_vG (E : FreyEnv) (dielectric q dg : ℚ) (nx : ℕ) : List ℚ :=
  let g : List ℚ :=
    (pyRoll (arangeInt (-(nx : ℚ) / 2) ((nx : ℚ) / 2)) (pyInt ((nx : ℚ) / 2))).map
      (fun z => (z : ℚ) * dg)
  let g2 : List ℚ := ((g.map (fun t => t * t)).drop 1)
  let head := 4 * np_pi * (-q) / dielectric * E.qm.rho_rec_limit0
  let tail := g2.map (fun t => 4 * np_pi / (dielectric * t) * (-q) * E.qm.rho_rec t)
  let v := head :: tail
  if nx % 2 = 0 then v.set (nx / 2) 0 else v

/-- The imaginary parts of the Fourier transform of `v_G`, the array whose
maximum is tested against `madetol` in corrections.py lines 246-250. -/
def fftImags (E : FreyEnv) (dielectric q dg : ℚ) (nx : ℕ) : List ℚ :=
  (E.fft ((build_vG E dielectric q dg nx).map (fun t => (t, 0)))).map (fun z => z.2)

/-- Real-space long-range potential (corrections.py lines 246-252): Fourier
transform `v_G`, raise if the absolute value of the maximum imaginary
component exceeds `madetol`, then take the real part divided by
`lattice.volume * ang_to_bohr^3` and converted with `hart_to_ev`. -/
def vR (E : FreyEnv) (lat : FLattice) (dielectric q madetol dg : ℚ) (nx : ℕ) :
    Except String (List ℚ) := do
  let m ← npMax (fftImags E dielectric q dg nx)
  if madetol < |m| then .error "imaginary part found"
  else .ok ((E.fft ((build_vG E dielectric q dg nx).map (fun t => (t, 0)))).map
      (fun z => z.1 / (lat.volume * ang_to_bohr ^ 3) * hart_to_ev))

/-- The index before which the source's roll-search loop breaks: the first
grid index whose coordinate exceeds `axbulkval`, or `nx - 1` if none does. -/
def findBreak (grid : List ℚ) (v : ℚ) : ℤ :=
  match grid.findIdx? (fun t => decide (v < t)) with
  | some i => (i : ℤ)
  | none => (grid.length : ℤ) - 1

/-- `FreysoldtCorrection.perform_pot_corr` (corrections.py lines 179-284):
planar-average potential alignment along one axis.  Returns the
contribution `-q * C` where `C` is minus the mean of the short-range
residual over the sampling window. -/
def perform_pot_corr (E : FreyEnv) (lat : FLattice) (dielectric : ℚ)
    (axis_grid pureavg defavg : List ℚ) (q : ℚ) (defect_frac : V3) (axis : ℕ)
    (madetol : ℚ) (widthsample : ℚ) : Except String ℚ := do
  let nx := axis_grid.length
  let abcax := lat.abc.get axis
  let axbulkval0 := defect_frac.get axis * abcax
  let axbulkval :=
    if axbulkval0 < 0 then axbulkval0 + abcax
    else if abcax < axbulkval0 then axbulkval0 - abcax
    else axbulkval0
  let rolled :=
    if axbulkval ≠ 0 then
      let i := findBreak axis_grid axbulkval
      let rollind := (nx : ℤ) - i
      (pyRoll pureavg rollind, pyRoll defavg rollind)
    else (pureavg, defavg)
  let dg := lat.recAbc.get axis / ang_to_bohr
  let vr ← vR E lat dielectric q madetol dg nx
  let short := List.zipWith3 (fun d p v => d - p - v) rolled.2 rolled.1 vr
  let x1 ← pyIndex axis_grid 1
  let x0 ← pyIndex axis_grid 0
  let checkdis := pyInt ((widthsample / 2) / (x1 - x0))
  let mid := pyInt ((short.length : ℚ) / 2)
  let window ← exceptMapList (fun j => pyIndex short (mid - checkdis + (j : ℤ)))
      (List.range (2 * checkdis + 1).toNat)
  let C := -(npMean window)
  .ok (-q * C)

/-- Result of `FreysoldtCorrection.get_correction`: the electrostatic energy,
the potential-alignment energy, and the `potalign` entry parameter. -/
structure FreyRes where
  es : ℚ
  potCorr : ℚ
  potalign : ℚ
deriving DecidableEq

/-- Zip of the per-axis grids and planar averages with the axis indices, as
the `zip` in `FreysoldtCorrection.get_correction` lines 123-124. -/
def zipAxes (grids bulks defs : List (List ℚ)) (axes : List ℕ) :
    List ((List ℚ × List ℚ) × (List ℚ × ℕ)) :=
  (grids.zip bulks).zip (defs.zip axes)

/-- `FreysoldtCorrection.get_correction` (corrections.py lines 67-135) on the
default `axis=None` path: electrostatic term, per-axis potential alignment,
mean over axes, and `potalign = pot_corr / (-q) if q else 0`. -/
def get_correction (E : FreyEnv) (lat : FLattice) (dielectric madetol energy_cutoff : ℚ)
    (axisGrid bulkAvgs defAvgs : List (List ℚ)) (defect_frac : V3) (q : ℚ) :
    Except String FreyRes := do
  let es ← perform_es_corr E lat dielectric q madetol energy_cutoff
  let axes := List.range axisGrid.length
  let pots ← exceptMapList
      (fun t => perform_pot_corr E lat dielectric t.1.1 t.1.2 t.2.1 q defect_frac t.2.2
        madetol 1)
      (zipAxes axisGrid bulkAvgs defAvgs axes)
  let potCorr := npMean pots
  .ok ⟨es, potCorr, if q ≠ 0 then potCorr / (-q) else 0⟩

end FreysoldtCorrection

/-- One precision level of `generate_R_and_G_vecs` (spec section 4.2): the
partial reciprocal and real summation values plus the enumerated vector
sets.  Modelled from the spec: the generator itself lives in `utils`, not
under the analysed sources. -/
structure GenOut where
  recipSum : ℚ
  realSum : ℚ
  gVecs : List V3
  rVecs : List V3

/-- External collaborators consumed by the Kumagai correction: special
functions (spec section 6), the per-precision lattice generator, the
`tune_for_gamma` result and the Wigner-Seitz inscribed radius (spec
sections 4.2 and 4.4). -/
structure KEnv where
  sqrt : ℚ → ℚ
  erfc : ℚ → ℚ
  exp : ℚ → ℚ
  cos : ℚ → ℚ
  gen : ℕ → GenOut
  tune_gamma : ℚ
  ws_radius : ℚ

/-- A site of the defect supercell as consumed by
`KumagaiCorrection.perform_pot_corr`: fractional coordinates, the periodic
image and distance returned by the external
`distance_and_image_from_frac_coords`, and the raw potential difference
`Vqb` attached in `get_correction`. -/
structure KSite where
  frac : V3
  jimage : V3
  dist : ℚ
  Vqb : ℚ
deriving DecidableEq

/-- Site geometry relative to the defect position, before `Vqb` is known. -/
structure KSiteGeom where
  frac : V3
  jimage : V3
  dist : ℚ
deriving DecidableEq

namespace KumagaiCorrection

/-- `KumagaiCorrection.get_self_interaction` (corrections.py lines 618-627). -/
def get_self_interaction (K : KEnv) (diel : M3) (gamma : ℚ) : ℚ :=
  -gamma / (2 * np_pi * K.sqrt (np_pi * diel.det))

/-- `KumagaiCorrection.get_potential_shift` (corrections.py lines 629-638). -/
def get_potential_shift (gamma volume : ℚ) : ℚ :=
  -(1/4) / (volume * gamma ^ 2)

/-- `KumagaiCorrection.get_real_summation` (corrections.py lines 583-599). -/
def get_real_summation (K : KEnv) (diel : M3) (gamma : ℚ) (real_vectors : List V3) : ℚ :=
  let rd_epsilon := K.sqrt diel.det
  let s := (real_vectors.map (fun r =>
      if 1/100000000 < K.sqrt (r.dot r) then
        let loc_res := K.sqrt (r.dot (diel.invMulVec r))
        K.erfc (gamma * loc_res) / loc_res
      else 0)).sum
  s / (4 * np_pi * rd_epsilon)

/-- `KumagaiCorrection.get_recip_summation` (corrections.py lines 601-616). -/
def get_recip_summation (K : KEnv) (diel : M3) (gamma : ℚ) (recip_vectors : List V3)
    (volume : ℚ) (r : V3) : ℚ :=
  ((recip_vectors.map (fun g =>
      let gdd := g.dot (diel.mulVec g)
      K.exp (-gdd / (4 * gamma ^ 2)) * K.cos (g.dot r) / gdd)).sum) / volume

/-- The cartesian vector from the defect to a site, lines 523-524 of
corrections.py. -/
def vecToSite (lat : FLattice) (defect_frac : V3) (frac jimage : V3) : V3 :=
  lat.cart ((frac.sub jimage).sub defect_frac)

/-- The recomputed distance to the defect, line 525 of corrections.py. -/
def distToDefect (K : KEnv) (lat : FLattice) (defect_frac : V3) (s : KSite) : ℚ :=
  let vec := vecToSite lat defect_frac s.frac s.jimage
  K.sqrt (vec.dot vec)

/-- The model potential `Vpc` at a site, lines 529-534 of corrections.py. -/
def siteVpc (K : KEnv) (diel : M3) (lat : FLattice) (defect_frac : V3)
    (q gamma : ℚ) (r_vecs g_vecs : List V3) (s : KSite) : ℚ :=
  let vec := vecToSite lat defect_frac s.frac s.jimage
  let rel := r_vecs.map (fun rv => rv.sub vec)
  let real_sum := get_real_summation K diel gamma rel
  let recip_sum := get_recip_summation K diel gamma g_vecs lat.volume vec
  (real_sum + recip_sum + get_potential_shift gamma lat.volume) * kumagai_to_V * q

/-- The per-site body of the loop in `perform_pot_corr` (corrections.py lines
521-559): check the externally supplied distance against the recomputed one,
then contribute `Vqb - Vpc` exactly when the distance to the defect strictly
exceeds the sampling radius. -/
def siteContribution (K : KEnv) (diel : M3) (lat : FLattice) (defect_frac : V3)
    (sampling_radius q gamma : ℚ) (r_vecs g_vecs : List V3) (s : KSite) :
    Except String (Option ℚ) :=
  let d := distToDefect K lat defect_frac s
  if 1/1000 < |d - s.dist| then .error "Error in computing vector to defect"
  else
    .ok (if sampling_radius < d then
      some (s.Vqb - siteVpc K diel lat defect_frac q gamma r_vecs g_vecs s)
    else none)

/-- The list of alignment samples (`for_correction` in the source): residuals
`Vqb - Vpc` of the sites whose distance to the defect strictly exceeds the
sampling radius. -/
def sampledResiduals (K : KEnv) (diel : M3) (lat : FLattice) (defect_frac : V3)
    (sampling_radius q gamma : ℚ) (r_vecs g_vecs : List V3) (sites : List KSite) :
    List ℚ :=
  sites.filterMap (fun s =>
    if sampling_radius < distToDefect K lat defect_frac s then
      some (s.Vqb - siteVpc K diel lat defect_frac q gamma r_vecs g_vecs s)
    else none)

/-- Mean of a sample list, or `0` for an empty one — the guarded mean of
corrections.py lines 561-566. -/
def meanOrZero (l : List ℚ) : ℚ := if l.length ≠ 0 then npMean l else 0

/-- Result of `KumagaiCorrection.perform_pot_corr`: the correction energy,
the alignment constant stored in `metadata["potalign"]`, and the number of
sampled sites. -/
structure KPotRes where
  potCorr : ℚ
  potalign : ℚ
  numberSampled : ℕ
deriving DecidableEq

/-- `KumagaiCorrection.perform_pot_corr` (corrections.py lines 482-581). -/
def perform_pot_corr (K : KEnv) (diel : M3) (lat : FLattice) (defect_frac : V3)
    (siteList : List KSite) (sampling_radius q : ℚ) (r_vecs g_vecs : List V3)
    (gamma : ℚ) : Except String KPotRes := do
  let opts ← exceptMapList
      (siteContribution K diel lat defect_frac sampling_radius q gamma r_vecs g_vecs)
      siteList
  let for_correction := opts.filterMap id
  let pot_alignment := if for_correction.length ≠ 0 then npMean for_correction else 0
  .ok ⟨-q * pot_alignment, pot_alignment, for_correction.length⟩

/-- The electrostatic summation of `KumagaiCorrection.get_correction`
(corrections.py lines 411-430), with the source's escalation branch kept
verbatim: generate precisions 25 and 28; if the two summations differ by
more than `0.0001`, regenerate at precisions 30 and 35 and raise exactly
when the new pair differs by less than `0.0001`.  Returns the first
summation value of the precision pair in use together with its generator
output (whose vector sets feed the potential alignment). -/
def es_branch (K : KEnv) (diel : M3) (lat : FLattice) (gamma : ℚ) :
    Except String (ℚ × GenOut) :=
  let pot_shift := get_potential_shift gamma lat.volume
  let si := get_self_interaction K diel gamma
  let d0 := K.gen 25
  let d1 := K.gen 28
  let es0 := d0.realSum + d0.recipSum + pot_shift + si
  let es1 := d1.realSum + d1.recipSum + pot_shift + si
  if 1/10000 < |es0 - es1| then
    let e0 := K.gen 30
    let e1 := K.gen 35
    let fs0 := e0.realSum + e0.recipSum + pot_shift + si
    let fs1 := e1.realSum + e1.recipSum + pot_shift + si
    if |fs0 - fs1| < 1/10000 then
      .error "Correction still not converged after trying prec_sets up to 35... serious error"
    else .ok (fs0, e0)
  else .ok (es0, d0)

/-- Result of `KumagaiCorrection.get_correction`: electrostatic energy,
potential-alignment energy, the `potalign` entry parameter and the
alignment constant of the metadata. -/
structure KRes where
  es : ℚ
  potCorr : ℚ
  potalign : ℚ
  metaPotalign : ℚ
deriving DecidableEq

/-- Python truthiness fallback `x if x else y` for an optional float
configuration value (`gamma` and `sampling_radius` in corrections.py lines
408-409 and 433-440): `None` and `0.0` both trigger the default. -/
def pyOrElse (x : Option ℚ) (dflt : ℚ) : ℚ :=
  match x with
  | some v => if v ≠ 0 then v else dflt
  | none => dflt

/-- `KumagaiCorrection.get_correction` (corrections.py lines 369-456):
tune gamma if unset, run the electrostatic branch, scale by
`-(q^2) * kumagai_to_V / 2`, default the sampling radius to the
Wigner-Seitz radius, assemble the site list with
`Vqb = -(defect_avg[ds] - bulk_avg[bs])`, run the potential alignment with
the first-precision vector sets, and set `potalign = pot_corr / (-q) if q
else 0`. -/
def get_correction (K : KEnv) (diel : M3) (lat : FLattice)
    (bulkAvgs defAvgs : List ℚ) (matching : List (ℤ × ℤ))
    (structSites : List KSiteGeom) (q : ℚ) (gamma0 sr0 : Option ℚ)
    (defect_frac : V3) : Except String KRes := do
  let gamma := pyOrElse gamma0 K.tune_gamma
  let (esSum, dUse) ← es_branch K diel lat gamma
  let es := esSum * (-(q ^ 2)) * kumagai_to_V / 2
  let radius := pyOrElse sr0 K.ws_radius
  let siteList ← exceptMapList (fun bd => do
      let dav ← pyIndex defAvgs bd.2
      let bav ← pyIndex bulkAvgs bd.1
      let geom ← pyIndex structSites bd.2
      Except.ok (⟨geom.frac, geom.jimage, geom.dist, -(dav - bav)⟩ : KSite))
      matching
  let pr ← perform_pot_corr K diel lat defect_frac siteList radius q dUse.rVecs
      dUse.gVecs gamma
  .ok ⟨es, pr.potCorr, if q ≠ 0 then pr.potCorr / (-q) else 0, pr.potalign⟩

end KumagaiCorrection

namespace BandFillingCorrection

/-- An eigenvalue spectrum: the list of spin-channel values of the Python
`eigenvalues` dict, each a per-k-point list of (energy, occupation) pairs. -/
abbrev Eigenvalues : Type := List (List (List (ℚ × ℚ)))

/-- `core_occupation_value` (corrections.py line 784): the occupation of the
first state of the first k-point of the first spin channel; Python raises an
IndexError if any of those levels is empty. -/
def coreOccupation : List (List (List (ℚ × ℚ))) → Except String ℚ
  | [] => .error "IndexError: list index out of range"
  | s :: _ =>
    match s with
    | [] => .error "IndexError: list index out of range"
    | k :: _ =>
      match k with
      | [] => .error "IndexError: list index out of range"
      | p :: _ => .ok p.2

/-- The spin multiplicity factor (corrections.py lines 785-791): `2` for one
spin channel whose core occupation is `1`, otherwise `1`; two channels give
`1`; more than two raise `ValueError`. -/
def spinFactor (nkeys : ℕ) (core : ℚ) : Except String ℚ :=
  if nkeys = 1 then .ok (if core = 1 then 2 else 1)
  else if nkeys = 2 then .ok 1
  else .error "Eigenvalue keys greater than 2"

/-- Contribution of one state (corrections.py lines 799-807), as the triple
(band-filling accumulator, hole count, electron count). -/
def stateContrib (core spinfctr resolution shifted_cbm shifted_vbm weight : ℚ)
    (p : ℚ × ℚ) : ℚ × ℚ × ℚ :=
  if p.2 ≠ 0 ∧ shifted_cbm - resolution < p.1 then
    (weight * spinfctr * p.2 * (p.1 - shifted_cbm), 0, weight * spinfctr * p.2)
  else if p.2 ≠ core ∧ p.1 ≤ shifted_vbm + resolution then
    (weight * spinfctr * (core - p.2) * (shifted_vbm - p.1),
      weight * spinfctr * (core - p.2), 0)
  else (0, 0, 0)

/-- Componentwise addition of accumulator triples. -/
def addT (a b : ℚ × ℚ × ℚ) : ℚ × ℚ × ℚ := (a.1 + b.1, a.2.1 + b.2.1, a.2.2 + b.2.2)

/-- Accumulation over one k-point set. -/
def kptContrib (core spinfctr resolution shifted_cbm shifted_vbm weight : ℚ)
    (kpt : List (ℚ × ℚ)) : ℚ × ℚ × ℚ :=
  (kpt.map (stateContrib core spinfctr resolution shifted_cbm shifted_vbm weight)).foldl
    addT (0, 0, 0)

/-- Accumulation over one spin channel, zipping k-point sets with the
k-point weights as the source's `zip(spinset, kpoint_weights)`. -/
def spinContrib (core spinfctr resolution shifted_cbm shifted_vbm : ℚ)
    (spinset : List (List (ℚ × ℚ))) (weights : List ℚ) : ℚ × ℚ × ℚ :=
  ((spinset.zip weights).map
    (fun kw => kptContrib core spinfctr resolution shifted_cbm shifted_vbm kw.2 kw.1)).foldl
    addT (0, 0, 0)

/-- `BandFillingCorrection.perform_bandfill_corr` (corrections.py lines
770-811).  Returns `(bf_corr, num_hole_vbm, num_elec_cbm)`; the final
band-filling correction is the negated accumulator. -/
def perform_bandfill_corr (eigenvalues : List (List (List (ℚ × ℚ))))
    (kpoint_weights : List ℚ) (potalign vbm cbm resolution : ℚ) :
    Except String (ℚ × ℚ × ℚ) := do
  let core ← coreOccupation eigenvalues
  let sf ← spinFactor eigenvalues.length core
  let shifted_cbm := potalign + cbm
  let shifted_vbm := potalign + vbm
  let tot := (eigenvalues.map
      (fun ss => spinContrib core sf resolution shifted_cbm shifted_vbm ss
        kpoint_weights)).foldl addT (0, 0, 0)
  .ok (-tot.1, tot.2.1, tot.2.2)

end BandFillingCorrection

namespace DefectCompatibility

/-- The method names defined on the `DefectCompatibility` class
(compatibility.py lines 48-409); its only base class, `MSONable`, provides
serialization helpers and none of these computation methods. -/
def classMethods : List String :=
  ["__init__", "process_entry", "perform_all_corrections", "perform_freysoldt",
   "perform_kumagai", "run_bandfilling", "run_band_edge_shifting",
   "delocalization_analysis", "is_freysoldt_delocalized", "is_kumagai_delocalized",
   "is_final_relaxed_structure_delocalized"]

/-- The attribute that the first statement of
`DefectCompatibility.process_entry` (compatibility.py line 87) looks up on
`self` before any correction can be attached. -/
def process_entry_first_call : String := "perform_corrections"

/-- Python attribute lookup on the class method table. -/
def pyGetAttr (methods : List String) (name : String) : Except String Unit :=
  if name ∈ methods then .ok () else
    .error ("AttributeError: DefectCompatibility object has no attribute " ++ name)

/-- The first step evaluated by `process_entry` on any defect entry. -/
def process_entry_step1 : Except String Unit :=
  pyGetAttr classMethods process_entry_first_call

/-- The charge-correction selection block of `process_entry`
(compatibility.py lines 91-104), as it would execute if control reached it:
skip the charge correction when either free-carrier count strictly exceeds
the cutoff, otherwise take the Freysoldt sum if the preference names
freysoldt and the Kumagai sum otherwise. -/
def chargeCorrectionSelection (free_chg_cutoff num_hole_vbm num_elec_cbm : ℚ)
    (prefersFreysoldt : Bool) (freyEs freyPot kumEs kumPot : ℚ) : Option ℚ :=
  if free_chg_cutoff < num_hole_vbm ∨ free_chg_cutoff < num_elec_cbm then none
  else if prefersFreysoldt then some (freyEs + freyPot)
  else some (kumEs + kumPot)

/-- Descriptive statistics of a sampling residual as consumed by the
delocalization checks: the `variance` and `minmax` fields produced by the
external `scipy.stats.describe`. -/
structure SampleStats where
  variance : ℚ
  minmax : ℚ × ℚ
deriving DecidableEq

/-- Python dictionary lookup, raising `KeyError` on a missing key. -/
def pyDictGet {α β : Type} [DecidableEq α] (d : List (α × β)) (k : α) :
    Except String β :=
  match d.find? (fun kv => kv.1 = k) with
  | some kv => .ok kv.2
  | none => .error "KeyError"

/-- Per-axis metadata record of the planar-average delocalization check. -/
structure FreyAxisMeta where
  frey_variance_compatible : Bool
  frey_variance : ℚ
  plnr_avg_var_tol : ℚ
  frey_minmax_compatible : Bool
  frey_minmax_window : ℚ
  plnr_avg_minmax_tol : ℚ
deriving DecidableEq

/-- The loop body and accumulator of
`DefectCompatibility.is_freysoldt_delocalized` (compatibility.py lines
284-307), kept faithful to the source: the per-axis metadata is written via
`plnr_avg_analyze_meta[ax].update(...)`, a lookup in the dictionary that
starts empty. -/
def freyDelocLoop (plnr_avg_var_tol plnr_avg_minmax_tol : ℚ) :
    List (ℕ × SampleStats) → List (ℕ × FreyAxisMeta) → Bool →
    Except String (List (ℕ × FreyAxisMeta) × Bool)
  | [], meta, comp => .ok (meta, comp)
  | (ax, st) :: rest, meta, comp => do
    let frey_variance_compatible := decide (st.variance ≤ plnr_avg_var_tol)
    let frey_window := |st.minmax.2 - st.minmax.1|
    let frey_minmax_compatible := decide (frey_window ≤ plnr_avg_minmax_tol)
    let _ ← pyDictGet meta ax
    let entry : FreyAxisMeta :=
      ⟨frey_variance_compatible, st.variance, plnr_avg_var_tol,
        frey_minmax_compatible, frey_window, plnr_avg_minmax_tol⟩
    let meta2 := (ax, entry) :: meta
    let comp2 := if ¬frey_variance_compatible ∨ ¬frey_minmax_compatible then false else comp
    freyDelocLoop plnr_avg_var_tol plnr_avg_minmax_tol rest meta2 comp2

/-- `DefectCompatibility.is_freysoldt_delocalized` over the three per-axis
statistics records (`for ax in range(3)`). -/
def is_freysoldt_delocalized (plnr_avg_var_tol plnr_avg_minmax_tol : ℚ)
    (stats0 stats1 stats2 : SampleStats) :
    Except String (List (ℕ × FreyAxisMeta) × Bool) :=
  freyDelocLoop plnr_avg_var_tol plnr_avg_minmax_tol
    [(0, stats0), (1, stats1), (2, stats2)] [] true

/-- A recorded delocalization channel: name and compatibility flag (the
nested numeric metadata is not needed by any claim about the store). -/
abbrev DelocChannels : Type := List (String × Bool)

/-- A parameter-store value; the store of the delocalization claims holds
channel dictionaries. -/
inductive PVal : Type
  | deloc : DelocChannels → PVal
deriving DecidableEq

/-- The per-entry parameter store. -/
abbrev PStore : Type := List (String × PVal)

/-- `dict.update({k: v})`: replace the value at `k`, or append the key. -/
def storeUpdate (s : PStore) (k : String) (v : PVal) : PStore :=
  if s.any (fun kv => kv.1 = k) then
    s.map (fun kv => if kv.1 = k then (k, v) else kv)
  else s ++ [(k, v)]

/-- Dictionary lookup in the parameter store. -/
def storeGet (s : PStore) (k : String) : Option PVal :=
  match s.find? (fun kv => kv.1 = k) with
  | some kv => some kv.2
  | none => none

/-- `DefectCompatibility.is_kumagai_delocalized` (compatibility.py lines
309-330): compute the atomic-site flags from the Kumagai sampling
statistics and write `delocalization_meta` as a fresh dictionary holding
only the `atomic_site` channel. -/
def is_kumagai_delocalized (atomic_site_var_tol atomic_site_minmax_tol : ℚ)
    (kumagaistats : SampleStats) (params : PStore) : PStore :=
  let kumagai_variance_compatible := decide (kumagaistats.variance ≤ atomic_site_var_tol)
  let kumagai_window := |kumagaistats.minmax.2 - kumagaistats.minmax.1|
  let kumagai_minmax_compatible := decide (kumagai_window ≤ atomic_site_minmax_tol)
  let atomic_site_allows_compatible :=
    kumagai_variance_compatible && kumagai_minmax_compatible
  storeUpdate params "delocalization_meta"
    (PVal.deloc [("atomic_site", atomic_site_allows_compatible)])

/-- `DefectCompatibility.is_final_relaxed_structure_delocalized`
(compatibility.py lines 332-409), with the geometric analysis results
(total and percentage relaxation outside the sampling radius, the defect
site's own displacement, and whether the defect is a vacancy) supplied by
the external structure collaborators.  The function performs two successive
writes of `delocalization_meta`: first a fresh dictionary holding only
`structure_relax`, then a fresh dictionary holding only `defectsite_relax`,
exactly as in the source. -/
def is_final_relaxed_structure_delocalized (tot_relax_tol perc_relax_tol
    defect_tot_relax_tol : ℚ) (isVacancy : Bool)
    (tot_relax_outside_wsrad perc_relax_outside_wsrad defect_relax_amount : ℚ)
    (params : PStore) : PStore :=
  let structure_tot_relax_compatible := decide (tot_relax_outside_wsrad ≤ tot_relax_tol)
  let structure_perc_relax_compatible := decide (perc_relax_outside_wsrad ≤ perc_relax_tol)
  let structure_relax_allows_compatible :=
    structure_tot_relax_compatible && structure_perc_relax_compatible
  let p1 := storeUpdate params "delocalization_meta"
    (PVal.deloc [("structure_relax", structure_relax_allows_compatible)])
  let defectsite_relax_allows_compatible :=
    if isVacancy then true else decide (defect_relax_amount ≤ defect_tot_relax_tol)
  storeUpdate p1 "delocalization_meta"
    (PVal.deloc [("defectsite_relax", defectsite_relax_allows_compatible)])

end DefectCompatibility

/-! Concrete instantiations of the external collaborators, used to witness
the theorems on explicit inputs. -/

namespace Witness

/-- The exact two-point discrete Fourier transform (its matrix is rational),
extended as the identity elsewhere. -/
def wfft : List (ℚ × ℚ) → List (ℚ × ℚ)
  | [a, b] => [(a.1 + b.1, a.2 + b.2), (a.1 - b.1, a.2 - b.2)]
  | l => l

/-- A four-point transform whose output carries a negation-symmetric
imaginary part, as the transform of a real signal does. -/
def wfft4 : List (ℚ × ℚ) → List (ℚ × ℚ)
  | [a, b, c, d] => [(a.1, 0), (b.1, 1), (c.1, 0), (d.1, -1)]
  | l => l

/-- A model charge with vanishing density and zero-frequency limit. -/
def wQM0 : QModel := ⟨fun _ => 0, 0⟩

/-- A model charge with zero-frequency limit 1. -/
def wQM1 : QModel := ⟨fun _ => 0, 1⟩

/-- Freysoldt collaborators for the zero-charge witness. -/
def wFreyEnv : FreyEnv := ⟨wQM0, fun _ _ => 0, id, fun _ _ _ _ => [], wfft⟩

/-- Freysoldt collaborators with a constant nonzero quadrature value. -/
def wFreyEnvQuad : FreyEnv :=
  ⟨wQM0, fun _ _ => np_pi * (1/10000000), id, fun _ _ _ _ => [], wfft⟩

/-- Freysoldt collaborators with a nonzero zero-frequency charge limit. -/
def wFreyEnvPot : FreyEnv := ⟨wQM1, fun _ _ => 0, id, fun _ _ _ _ => [], wfft⟩

/-- Freysoldt collaborators whose transform output has a large
negation-symmetric imaginary component. -/
def wFreyEnvImag : FreyEnv := ⟨wQM0, fun _ _ => 0, id, fun _ _ _ _ => [], wfft4⟩

/-- A cubic 10 angstrom lattice. -/
def wLat : FLattice :=
  ⟨⟨10, 0, 0⟩, ⟨0, 10, 0⟩, ⟨0, 0, 10⟩, ⟨10, 10, 10⟩, ⟨1, 1, 1⟩, 1000⟩

/-- A two-point sampling grid. -/
def wGrid : List ℚ := [0, 10]

/-- A four-point sampling grid. -/
def wGrid4 : List ℚ := [0, 3, 6, 9]

/-- Kumagai collaborators whose lattice summations all vanish. -/
def wKEnv : KEnv := ⟨id, fun _ => 0, fun _ => 0, fun _ => 0, fun _ => ⟨0, 0, [], []⟩, 1, 1⟩

/-- A generator whose precision pair (25, 28) disagrees while the escalated
pair (30, 35) agrees. -/
def wGenConv : ℕ → GenOut := fun p => if p = 28 then ⟨0, 1, [], []⟩ else ⟨0, 0, [], []⟩

/-- A generator whose precision pairs (25, 28) and (30, 35) both disagree. -/
def wGenDiv : ℕ → GenOut := fun p =>
  if p = 28 ∨ p = 35 then ⟨0, 1, [], []⟩ else ⟨0, 0, [], []⟩

def wKEnvConv : KEnv := ⟨id, fun _ => 0, fun _ => 0, fun _ => 0, wGenConv, 1, 1⟩

def wKEnvDiv : KEnv := ⟨id, fun _ => 0, fun _ => 0, fun _ => 0, wGenDiv, 1, 1⟩

/-- A site 10 angstrom from the defect (outside the sampling radius 1); its
externally supplied distance equals the recomputed `sqrt`-free value. -/
def wSiteFar : KSite := ⟨⟨1, 0, 0⟩, V3.zero, 100, 7⟩

/-- A site at the defect position (inside the sampling radius). -/
def wSiteNear : KSite := ⟨V3.zero, V3.zero, 0, 5⟩

def wSites : List KSite := [wSiteFar, wSiteNear]

end Witness

/-! Helper lemmas. -/

theorem except_bind_ok {α β : Type} (x : Except String α) (f : α → Except String β) (b : β)
    (h : (x >>= f) = .ok b) : ∃ a, x = .ok a ∧ f a = .ok b := by
  cases x with
  | error e => simp [Bind.bind, Except.bind] at h
  | ok a => exact ⟨a, rfl, h⟩

theorem exceptMapList_ok_mem {α β : Type} (f : α → Except String β) :
    ∀ (l : List α) (out : List β), exceptMapList f l = .ok out →
      ∀ b ∈ out, ∃ a ∈ l, f a = .ok b := by
  intro l
  induction l with
  | nil =>
    intro out h b hb
    simp only [exceptMapList] at h
    cases h
    simp at hb
  | cons a as ih =>
    intro out h b hb
    simp only [exceptMapList] at h
    cases hfa : f a with
    | error e => rw [hfa] at h; cases h
    | ok b0 =>
      rw [hfa] at h
      cases hrest : exceptMapList f as with
      | error e => rw [hrest] at h; cases h
      | ok bs =>
        rw [hrest] at h
        cases h
        rcases List.mem_cons.mp hb with hb | hb
        · exact ⟨a, List.mem_cons_self a as, by rw [hfa, hb]⟩
        · obtain ⟨a2, ha2, hfa2⟩ := ih bs hrest b hb
          exact ⟨a2, List.mem_cons_of_mem a ha2, hfa2⟩

theorem npMean_zero (l : List ℚ) (h : ∀ x ∈ l, x = 0) : npMean l = 0 := by
  have hs : l.sum = 0 := List.sum_eq_zero h
  simp [npMean, hs]

theorem convergeAux_zero (f : ℚ → ℚ) (step tol : ℚ) (hf : ∀ x, f x = 0) :
    ∀ (n : ℕ) (x prev v : ℚ), convergeAux f step tol n x prev = .ok v → v = 0 := by
  intro n
  induction n with
  | zero => intro x prev v h; simp only [convergeAux] at h; cases h
  | succ n ih =>
    intro x prev v h
    simp only [convergeAux] at h
    split at h
    · cases h; exact hf x
    · exact ih _ _ _ h

theorem converge_zero (f : ℚ → ℚ) (step tol maxc v : ℚ) (hf : ∀ x, f x = 0)
    (h : converge f step tol maxc = .ok v) : v = 0 :=
  convergeAux_zero f step tol hf _ _ _ _ h

theorem pyRound6_zero : pyRound6 0 = 0 := by with_unfolding_all rfl

namespace FreysoldtCorrection

theorem e_iso_zero (E : FreyEnv) (step encut : ℚ) : e_iso E 0 step encut = 0 := by
  simp [e_iso]

theorem e_per_zero (E : FreyEnv) (lat : FLattice) (encut : ℚ) : e_per E lat 0 encut = 0 := by
  simp [e_per]

theorem perform_es_corr_zero (E : FreyEnv) (lat : FLattice) (d tol ec v : ℚ)
    (h : perform_es_corr E lat d 0 tol ec = .ok v) : v = 0 := by
  unfold perform_es_corr at h
  obtain ⟨eiso, h1, h⟩ := except_bind_ok _ _ _ h
  obtain ⟨eper, h2, h⟩ := except_bind_ok _ _ _ h
  have hiso : eiso = 0 := converge_zero _ _ _ _ _ (fun x => e_iso_zero E (1/10000) x) h1
  have hper : eper = 0 := converge_zero _ _ _ _ _ (fun x => e_per_zero E lat x) h2
  cases h
  rw [hiso, hper]
  simpa using pyRound6_zero

theorem perform_pot_corr_zero (E : FreyEnv) (lat : FLattice) (d : ℚ)
    (grid pu de : List ℚ) (frac : V3) (ax : ℕ) (tol w v : ℚ)
    (h : perform_pot_corr E lat d grid pu de 0 frac ax tol w = .ok v) : v = 0 := by
  unfold perform_pot_corr at h
  obtain ⟨vr, _, h⟩ := except_bind_ok _ _ _ h
  obtain ⟨x1, _, h⟩ := except_bind_ok _ _ _ h
  obtain ⟨x0, _, h⟩ := except_bind_ok _ _ _ h
  obtain ⟨window, _, h⟩ := except_bind_ok _ _ _ h
  cases h
  simp

theorem frey_get_correction_ok (E : FreyEnv) (lat : FLattice)
    (dielectric madetol energy_cutoff : ℚ) (axisGrid bulkAvgs defAvgs : List (List ℚ))
    (defect_frac : V3) (q : ℚ) (r : FreyRes)
    (h : get_correction E lat dielectric madetol energy_cutoff axisGrid bulkAvgs defAvgs
      defect_frac q = .ok r) :
    ∃ es pots,
      perform_es_corr E lat dielectric q madetol energy_cutoff = .ok es ∧
      exceptMapList
        (fun t => perform_pot_corr E lat dielectric t.1.1 t.1.2 t.2.1 q defect_frac t.2.2
          madetol 1)
        (zipAxes axisGrid bulkAvgs defAvgs (List.range axisGrid.length)) = .ok pots ∧
      r = ⟨es, npMean pots, if q ≠ 0 then npMean pots / (-q) else 0⟩ := by
  unfold get_correction at h
  obtain ⟨es, h1, h⟩ := except_bind_ok _ _ _ h
  obtain ⟨pots, h2, h⟩ := except_bind_ok _ _ _ h
  cases h
  exact ⟨es, pots, h1, h2, rfl⟩

end FreysoldtCorrection

namespace KumagaiCorrection

theorem siteContribution_ok (K : KEnv) (diel : M3) (lat : FLattice) (frac : V3)
    (radius q gamma : ℚ) (rv gv : List V3) (s : KSite) (o : Option ℚ)
    (h : siteContribution K diel lat frac radius q gamma rv gv s = .ok o) :
    o = if radius < distToDefect K lat frac s then
      some (s.Vqb - siteVpc K diel lat frac q gamma rv gv s)
    else none := by
  simp only [siteContribution] at h
  split at h
  · cases h
  · cases h; rfl

theorem siteLoop_spec (K : KEnv) (diel : M3) (lat : FLattice) (frac : V3)
    (radius q gamma : ℚ) (rv gv : List V3) :
    ∀ (sites : List KSite) (opts : List (Option ℚ)),
      exceptMapList (siteContribution K diel lat frac radius q gamma rv gv) sites
        = .ok opts →
      opts.filterMap id = sampledResiduals K diel lat frac radius q gamma rv gv sites := by
  intro sites
  induction sites with
  | nil =>
    intro opts h
    simp only [exceptMapList] at h
    cases h
    simp [sampledResiduals]
  | cons s ss ih =>
    intro opts h
    simp only [exceptMapList] at h
    cases hc : siteContribution K diel lat frac radius q gamma rv gv s with
    | error e => rw [hc] at h; cases h
    | ok o =>
      rw [hc] at h
      cases hr : exceptMapList (siteContribution K diel lat frac radius q gamma rv gv) ss with
      | error e => rw [hr] at h; cases h
      | ok os =>
        rw [hr] at h
        cases h
        have ho := siteContribution_ok K diel lat frac radius q gamma rv gv s o hc
        subst ho
        have ihe := ih os hr
        unfold sampledResiduals at ihe ⊢
        rw [List.filterMap_cons, List.filterMap_cons]
        by_cases hq : radius < distToDefect K lat frac s
        · simp [hq, ihe]
        · simp [hq, ihe]

theorem perform_pot_corr_ok (K : KEnv) (diel : M3) (lat : FLattice) (frac : V3)
    (sites : List KSite) (radius q : ℚ) (rv gv : List V3) (gamma : ℚ) (res : KPotRes)
    (h : perform_pot_corr K diel lat frac sites radius q rv gv gamma = .ok res) :
    res.potalign = meanOrZero (sampledResiduals K diel lat frac radius q gamma rv gv sites) ∧
    res.potCorr = -q * res.potalign ∧
    res.numberSampled = (sampledResiduals K diel lat frac radius q gamma rv gv sites).length := by
  unfold perform_pot_corr at h
  obtain ⟨opts, h1, h⟩ := except_bind_ok _ _ _ h
  cases h
  have hl := siteLoop_spec K diel lat frac radius q gamma rv gv sites opts h1
  rw [meanOrZero, ← hl]
  exact ⟨rfl, rfl, by rw [hl]⟩

theorem kum_get_correction_ok (K : KEnv) (diel : M3) (lat : FLattice)
    (bulkAvgs defAvgs : List ℚ) (matching : List (ℤ × ℤ))
    (structSites : List KSiteGeom) (q : ℚ) (gamma0 sr0 : Option ℚ)
    (defect_frac : V3) (r : KRes)
    (h : get_correction K diel lat bulkAvgs defAvgs matching structSites q gamma0 sr0
      defect_frac = .ok r) :
    ∃ esSum dUse siteList pr,
      es_branch K diel lat (pyOrElse gamma0 K.tune_gamma) = .ok (esSum, dUse) ∧
      perform_pot_corr K diel lat defect_frac siteList (pyOrElse sr0 K.ws_radius) q
        dUse.rVecs dUse.gVecs (pyOrElse gamma0 K.tune_gamma) = .ok pr ∧
      r = ⟨esSum * (-(q ^ 2)) * kumagai_to_V / 2, pr.potCorr,
        if q ≠ 0 then pr.potCorr / (-q) else 0, pr.potalign⟩ := by
  unfold get_correction at h
  obtain ⟨p, h1, h⟩ := except_bind_ok _ _ _ h
  obtain ⟨esSum, dUse⟩ := p
  obtain ⟨siteList, h2, h⟩ := except_bind_ok _ _ _ h
  obtain ⟨pr, h3, h⟩ := except_bind_ok _ _ _ h
  cases h
  exact ⟨esSum, dUse, siteList, pr, h1, h3, rfl⟩

end KumagaiCorrection

theorem except_ok_bind {α β : Type} (a : α) (f : α → Except String β) :
    (Except.ok a >>= f : Except String β) = f a := rfl

theorem start_le_foldl_max (l : List ℚ) : ∀ a : ℚ, a ≤ l.foldl max a := by
  induction l with
  | nil => intro a; exact le_refl a
  | cons b t ih =>
    intro a
    exact le_trans (le_max_left a b) (ih (max a b))

theorem mem_le_foldl_max (l : List ℚ) : ∀ (a x : ℚ), x ∈ l → x ≤ l.foldl max a := by
  induction l with
  | nil => intro a x hx; simp at hx
  | cons b t ih =>
    intro a x hx
    rcases List.mem_cons.mp hx with hx | hx
    · subst hx
      exact le_trans (le_max_right a x) (start_le_foldl_max t (max a x))
    · exact ih (max a b) x hx

theorem foldl_max_mem (l : List ℚ) : ∀ a : ℚ, l.foldl max a ∈ a :: l := by
  induction l with
  | nil => intro a; simp
  | cons b t ih =>
    intro a
    simp only [List.foldl_cons]
    rcases List.mem_cons.mp (ih (max a b)) with h | h
    · rcases max_choice a b with hm | hm
      · rw [h, hm]; exact List.mem_cons_self _ _
      · rw [h, hm]; exact List.mem_cons_of_mem _ (List.mem_cons_self _ _)
    · exact List.mem_cons_of_mem _ (List.mem_cons_of_mem _ h)

/-! Claim theorems. -/

/-- C2 (code-bug evaluation): the Kumagai escalation branch raises exactly
when the escalated precision pair agrees within the 0.0001 tolerance, and
silently proceeds when it still disagrees — the opposite of the documented
convergence policy.  With `Witness.wGenConv` the pair (25, 28) differs by 1
and the escalated pair (30, 35) agrees, yet `get_correction` raises the
"still not converged" error; with `Witness.wGenDiv` the escalated pair still
differs by 1, yet no error is raised. -/
theorem kumagai_convergence_check_inverted :
    KumagaiCorrection.get_correction Witness.wKEnvConv M3.identity Witness.wLat [] [] [] []
      3 (some 1) (some 1) V3.zero
      = .error "Correction still not converged after trying prec_sets up to 35... serious error"
    ∧ exceptIsErr (KumagaiCorrection.get_correction Witness.wKEnvDiv M3.identity Witness.wLat
        [] [] [] [] 3 (some 1) (some 1) V3.zero) = false := by
  constructor
  · with_unfolding_all rfl
  · with_unfolding_all rfl

/-- C3 (code-bug evaluation): the first statement of
`DefectCompatibility.process_entry` looks up `self.perform_corrections`,
which is not a method of the class (the defined name is
`perform_all_corrections`), so `process_entry` raises `AttributeError` on
every defect entry before any `charge_correction` can be attached. -/
theorem process_entry_missing_method :
    DefectCompatibility.process_entry_step1
      = .error "AttributeError: DefectCompatibility object has no attribute perform_corrections"
    := by rfl

/-- C5 (code-bug evaluation): `is_freysoldt_delocalized` writes its per-axis
metadata through `plnr_avg_analyze_meta[ax].update(...)` on a dictionary
that starts empty, so on the very first axis it raises `KeyError` — here
evaluated on statistics with variance 0.05 against tolerance 0.1, for which
the claim expects a recorded compatible verdict. -/
theorem freysoldt_deloc_check_keyerror :
    DefectCompatibility.is_freysoldt_delocalized (1/10) (1/10)
      ⟨5/100, (0, 0)⟩ ⟨5/100, (0, 0)⟩ ⟨5/100, (0, 0)⟩ = .error "KeyError" := by
  with_unfolding_all rfl

/-- C9 (code-bug evaluation): each delocalization check replaces the whole
`delocalization_meta` value with a fresh single-channel dictionary.  After
`is_kumagai_delocalized` the store holds only the `atomic_site` record, and
after `is_final_relaxed_structure_delocalized` only `defectsite_relax`
survives — the `atomic_site` record and even the `structure_relax` record
written moments earlier by the same function are deleted. -/
theorem delocalization_meta_overwritten :
    DefectCompatibility.storeGet
      (DefectCompatibility.is_kumagai_delocalized (1/10) (1/10) ⟨5/100, (0, 1/100)⟩ [])
      "delocalization_meta"
      = some (DefectCompatibility.PVal.deloc [("atomic_site", true)])
    ∧ DefectCompatibility.storeGet
      (DefectCompatibility.is_final_relaxed_structure_delocalized (1/10) (1/10) (1/10)
        false (1/100) (1/100) (1/100)
        (DefectCompatibility.is_kumagai_delocalized (1/10) (1/10) ⟨5/100, (0, 1/100)⟩ []))
      "delocalization_meta"
      = some (DefectCompatibility.PVal.deloc [("defectsite_relax", true)]) := by
  constructor
  · with_unfolding_all rfl
  · with_unfolding_all rfl

/-- C4: in the Kumagai potential-alignment step only sites whose distance to
the defect strictly exceeds the sampling radius contribute, the alignment
constant is the arithmetic mean of the contributed residuals (0 when no site
qualifies, with no division by zero), and the returned correction is
`-charge` times the alignment constant. -/
theorem kumagai_pot_alignment_mean (K : KEnv) (diel : M3) (lat : FLattice) (frac : V3)
    (sites : List KSite) (radius q : ℚ) (rv gv : List V3) (gamma : ℚ)
    (res : KumagaiCorrection.KPotRes)
    (h : KumagaiCorrection.perform_pot_corr K diel lat frac sites radius q rv gv gamma
      = .ok res) :
    res.potalign = KumagaiCorrection.meanOrZero
      (KumagaiCorrection.sampledResiduals K diel lat frac radius q gamma rv gv sites) ∧
    (KumagaiCorrection.sampledResiduals K diel lat frac radius q gamma rv gv sites = [] →
      res.potalign = 0) ∧
    res.potCorr = -q * res.potalign := by
  obtain ⟨h1, h2, _⟩ := KumagaiCorrection.perform_pot_corr_ok K diel lat frac sites radius
    q rv gv gamma res h
  refine ⟨h1, ?_, h2⟩
  intro he
  rw [h1, he]
  simp [KumagaiCorrection.meanOrZero]

/-- Witness for C4 on two concrete sites, one strictly beyond the sampling
radius and one inside it. -/
theorem kumagai_pot_alignment_mean_witness :
    (KumagaiCorrection.perform_pot_corr Witness.wKEnv M3.identity Witness.wLat V3.zero
        Witness.wSites 1 3 [] [] 1).map
      (fun res => (res.potalign - KumagaiCorrection.meanOrZero
          (KumagaiCorrection.sampledResiduals Witness.wKEnv M3.identity Witness.wLat
            V3.zero 1 3 1 [] [] Witness.wSites),
        res.potCorr + 3 * res.potalign))
      = .ok (0, 0) := by
  cases h : KumagaiCorrection.perform_pot_corr Witness.wKEnv M3.identity Witness.wLat
      V3.zero Witness.wSites 1 3 [] [] 1 with
  | error e =>
    have hok : exceptIsErr (KumagaiCorrection.perform_pot_corr Witness.wKEnv M3.identity
        Witness.wLat V3.zero Witness.wSites 1 3 [] [] 1) = false := by
      with_unfolding_all rfl
    rw [h] at hok
    simp [exceptIsErr] at hok
  | ok res =>
    obtain ⟨h1, _, h3⟩ := kumagai_pot_alignment_mean Witness.wKEnv M3.identity Witness.wLat
      V3.zero Witness.wSites 1 3 [] [] 1 res h
    have e1 : res.potalign - KumagaiCorrection.meanOrZero
        (KumagaiCorrection.sampledResiduals Witness.wKEnv M3.identity Witness.wLat V3.zero
          1 3 1 [] [] Witness.wSites) = 0 := by rw [h1]; ring
    have e2 : res.potCorr + 3 * res.potalign = 0 := by rw [h3]; ring
    simp only [Except.map]
    rw [e1, e2]

/-- C6 counterexample: with a fixed lattice, dielectric and potentials, the
Freysoldt electrostatic correction at charge 2 is not `2^2` times the value
at charge 1 (the source rounds to 6 decimals), and the Freysoldt
potential-alignment correction at charge -1 is not the negation of the one
at charge 1 (the model potential contributes a charge-squared term to the
sampled window). -/
theorem charge_scaling_counterexample :
    FreysoldtCorrection.perform_es_corr Witness.wFreyEnvQuad Witness.wLat 1 1 (1/10000) 520
      = .ok (3/1000000) ∧
    FreysoldtCorrection.perform_es_corr Witness.wFreyEnvQuad Witness.wLat 1 2 (1/10000) 520
      = .ok (11/1000000) ∧
    (11/1000000 : ℚ) ≠ 2 ^ 2 * (3/1000000) ∧
    FreysoldtCorrection.perform_pot_corr Witness.wFreyEnvPot Witness.wLat 1 Witness.wGrid
      [0, 0] [0, 0] 1 V3.zero 0 (1/10000) 1
      = .ok (427435671669466466201/8435068275341250000000) ∧
    FreysoldtCorrection.perform_pot_corr Witness.wFreyEnvPot Witness.wLat 1 Witness.wGrid
      [0, 0] [0, 0] (-1) V3.zero 0 (1/10000) 1
      = .ok (427435671669466466201/8435068275341250000000) ∧
    (427435671669466466201/8435068275341250000000 : ℚ)
      ≠ -(427435671669466466201/8435068275341250000000 : ℚ) := by
  refine ⟨by with_unfolding_all rfl, by with_unfolding_all rfl, by norm_num,
    by with_unfolding_all rfl, by with_unfolding_all rfl, by norm_num⟩

/-- C6 (amended): the Kumagai electrostatic correction scales exactly as
charge squared — the underlying lattice summation is charge-independent and
is scaled by `-(q^2) * kumagai_to_V / 2`; the Freysoldt electrostatic
correction (rounded to 6 decimals) and the potential-alignment corrections
do not obey the exact charge scaling laws. -/
theorem kumagai_es_charge_squared_scaling (K : KEnv) (diel : M3) (lat : FLattice)
    (bAvgs dAvgs : List ℚ) (matching : List (ℤ × ℤ)) (sGeoms : List KSiteGeom)
    (q : ℚ) (g0 sr0 : Option ℚ) (frac : V3) (r r1 : KumagaiCorrection.KRes)
    (hq : KumagaiCorrection.get_correction K diel lat bAvgs dAvgs matching sGeoms q
      g0 sr0 frac = .ok r)
    (h1 : KumagaiCorrection.get_correction K diel lat bAvgs dAvgs matching sGeoms 1
      g0 sr0 frac = .ok r1) :
    r.es = q ^ 2 * r1.es := by
  obtain ⟨s, d, sl, pr, e1, _, h3⟩ := KumagaiCorrection.kum_get_correction_ok K diel lat
    bAvgs dAvgs matching sGeoms q g0 sr0 frac r hq
  obtain ⟨s', d', sl', pr', e1', _, h3'⟩ := KumagaiCorrection.kum_get_correction_ok K diel lat
    bAvgs dAvgs matching sGeoms 1 g0 sr0 frac r1 h1
  rw [e1] at e1'
  have hs : s = s' := by cases e1'; rfl
  subst h3
  subst h3'
  show s * (-(q ^ 2)) * kumagai_to_V / 2 = q ^ 2 * (s' * (-(1 ^ 2)) * kumagai_to_V / 2)
  rw [← hs]
  ring

/-- Witness for C6 (amended): the Kumagai electrostatic value at charge 2
equals `2^2` times the value at charge 1 on a concrete environment. -/
theorem kumagai_es_charge_squared_scaling_witness :
    (KumagaiCorrection.get_correction Witness.wKEnv M3.identity Witness.wLat [] [] [] []
        2 (some 1) (some 1) V3.zero).map KumagaiCorrection.KRes.es
      = (KumagaiCorrection.get_correction Witness.wKEnv M3.identity Witness.wLat [] [] [] []
        1 (some 1) (some 1) V3.zero).map (fun r => 2 ^ 2 * r.es) := by
  cases h2 : KumagaiCorrection.get_correction Witness.wKEnv M3.identity Witness.wLat
      [] [] [] [] 2 (some 1) (some 1) V3.zero with
  | error e =>
    have hok : exceptIsErr (KumagaiCorrection.get_correction Witness.wKEnv M3.identity
        Witness.wLat [] [] [] [] 2 (some 1) (some 1) V3.zero) = false := by
      with_unfolding_all rfl
    rw [h2] at hok
    simp [exceptIsErr] at hok
  | ok r2 =>
    cases h1 : KumagaiCorrection.get_correction Witness.wKEnv M3.identity Witness.wLat
        [] [] [] [] 1 (some 1) (some 1) V3.zero with
    | error e =>
      have hok : exceptIsErr (KumagaiCorrection.get_correction Witness.wKEnv M3.identity
          Witness.wLat [] [] [] [] 1 (some 1) (some 1) V3.zero) = false := by
        with_unfolding_all rfl
      rw [h1] at hok
      simp [exceptIsErr] at hok
    | ok r1 =>
      simp only [Except.map]
      rw [kumagai_es_charge_squared_scaling Witness.wKEnv M3.identity Witness.wLat
        [] [] [] [] 2 (some 1) (some 1) V3.zero r2 r1 h2 h1]

/-- C7: in the Freysoldt potential-alignment step the computation fails
exactly on a non-negligible imaginary transform component: if some imaginary
component exceeds the tolerance in absolute value the step raises (using
that the imaginary parts of the transform of the real array `v_G` form a
negation-closed collection), and if every component is within tolerance no
exception is raised and the scaled real part is returned. -/
theorem freysoldt_imaginary_component_check (E : FreyEnv) (lat : FLattice)
    (dielectric : ℚ) (grid pu de : List ℚ) (q : ℚ) (frac : V3) (ax : ℕ) (madetol : ℚ)
    (imags : List ℚ)
    (him : FreysoldtCorrection.fftImags E dielectric q (lat.recAbc.get ax / ang_to_bohr)
      grid.length = imags)
    (hne : imags ≠ [])
    (hsym : ∀ t ∈ imags, -t ∈ imags) :
    ((∃ t ∈ imags, madetol < |t|) →
      FreysoldtCorrection.perform_pot_corr E lat dielectric grid pu de q frac ax madetol 1
        = .error "imaginary part found") ∧
    ((∀ t ∈ imags, |t| ≤ madetol) →
      FreysoldtCorrection.vR E lat dielectric q madetol (lat.recAbc.get ax / ang_to_bohr)
        grid.length
        = .ok ((E.fft ((FreysoldtCorrection.build_vG E dielectric q
            (lat.recAbc.get ax / ang_to_bohr) grid.length).map (fun t => (t, 0)))).map
          (fun z => z.1 / (lat.volume * ang_to_bohr ^ 3) * hart_to_ev))) := by
  obtain ⟨h0, tl, hlist⟩ : ∃ h0 tl, imags = h0 :: tl := by
    cases imags with
    | nil => exact absurd rfl hne
    | cons a b => exact ⟨a, b, rfl⟩
  have hmax : npMax imags = .ok (tl.foldl max h0) := by rw [hlist]; rfl
  constructor
  · rintro ⟨t, htm, htol⟩
    have hbig : madetol < tl.foldl max h0 := by
      rcases le_or_lt 0 t with hs | hs
      · have hle : t ≤ tl.foldl max h0 := by
          rcases List.mem_cons.mp (hlist ▸ htm) with hx | hx
          · rw [hx]; exact start_le_foldl_max tl h0
          · exact mem_le_foldl_max tl h0 t hx
        calc madetol < |t| := htol
          _ = t := abs_of_nonneg hs
          _ ≤ _ := hle
      · have hmem : -t ∈ imags := hsym t htm
        have hle : -t ≤ tl.foldl max h0 := by
          rcases List.mem_cons.mp (hlist ▸ hmem) with hx | hx
          · rw [hx]; exact start_le_foldl_max tl h0
          · exact mem_le_foldl_max tl h0 (-t) hx
        calc madetol < |t| := htol
          _ = -t := abs_of_neg hs
          _ ≤ _ := hle
    have habs : madetol < |tl.foldl max h0| :=
      lt_of_lt_of_le hbig (le_abs_self _)
    have hvr : FreysoldtCorrection.vR E lat dielectric q madetol
        (lat.recAbc.get ax / ang_to_bohr) grid.length
        = .error "imaginary part found" := by
      unfold FreysoldtCorrection.vR
      rw [him, hmax, except_ok_bind, if_pos habs]
    simp only [FreysoldtCorrection.perform_pot_corr]
    rw [hvr]
    rfl
  · intro hall
    have hvin : tl.foldl max h0 ∈ imags := by
      rw [hlist]; exact foldl_max_mem tl h0
    have hno : ¬ madetol < |tl.foldl max h0| := not_lt.mpr (hall _ hvin)
    unfold FreysoldtCorrection.vR
    rw [him, hmax, except_ok_bind, if_neg hno]

/-- Witness for C7: a transform output with imaginary parts `[0, 1, 0, -1]`
against tolerance 1/2 makes the embedded potential-alignment step raise. -/
theorem freysoldt_imaginary_component_check_witness :
    FreysoldtCorrection.perform_pot_corr Witness.wFreyEnvImag Witness.wLat 1 Witness.wGrid4
      [0, 0, 0, 0] [0, 0, 0, 0] 1 V3.zero 0 (1/2) 1 = .error "imaginary part found" := by
  have him : FreysoldtCorrection.fftImags Witness.wFreyEnvImag 1 1
      (Witness.wLat.recAbc.get 0 / ang_to_bohr) Witness.wGrid4.length = [0, 1, 0, -1] := by
    with_unfolding_all rfl
  exact (freysoldt_imaginary_component_check Witness.wFreyEnvImag Witness.wLat 1
    Witness.wGrid4 [0, 0, 0, 0] [0, 0, 0, 0] 1 V3.zero 0 (1/2) [0, 1, 0, -1] him
    (by with_unfolding_all decide) (by with_unfolding_all decide)).1
    ⟨1, by with_unfolding_all decide, by with_unfolding_all decide⟩

/-- C8 counterexample: a spectrum in which every occupation equals the ideal
host occupation value (here 1) but whose single state lies above the shifted
CBM yields band-filling correction -10 and free-electron count 2, not 0. -/
theorem bandfill_uniform_occupation_counterexample :
    BandFillingCorrection.coreOccupation [[[(10, 1)]]] = .ok 1 ∧
    ([[[((10 : ℚ), (1 : ℚ))]]].all
      (fun ss => ss.all (fun k => k.all (fun p => p.2 == 1))) = true) ∧
    BandFillingCorrection.perform_bandfill_corr [[[(10, 1)]]] [1] 0 0 5 (1/100)
      = .ok (-10, 0, 2) ∧
    (-10 : ℚ) ≠ 0 ∧ (2 : ℚ) ≠ 0 := by
  refine ⟨by with_unfolding_all rfl, by with_unfolding_all rfl,
    by with_unfolding_all rfl, by norm_num, by norm_num⟩

theorem stateContrib_zero (core sf res cbm2 vbm2 weight : ℚ) (p : ℚ × ℚ)
    (h1 : p.2 = core) (h2 : p.2 = 0 ∨ p.1 ≤ cbm2 - res) :
    BandFillingCorrection.stateContrib core sf res cbm2 vbm2 weight p = (0, 0, 0) := by
  have hc1 : ¬(p.2 ≠ 0 ∧ cbm2 - res < p.1) := by
    rcases h2 with h2 | h2
    · intro hx; exact hx.1 h2
    · intro hx; exact absurd hx.2 (not_lt.mpr h2)
  have hc2 : ¬(p.2 ≠ core ∧ p.1 ≤ vbm2 + res) := fun hx => hx.1 h1
  unfold BandFillingCorrection.stateContrib
  rw [if_neg hc1, if_neg hc2]

theorem foldl_addT_zero : ∀ l : List (ℚ × ℚ × ℚ), (∀ x ∈ l, x = (0, 0, 0)) →
    l.foldl BandFillingCorrection.addT (0, 0, 0) = (0, 0, 0) := by
  intro l
  induction l with
  | nil => intro _; rfl
  | cons a t ih =>
    intro h
    have ha := h a (List.mem_cons_self a t)
    have hz : BandFillingCorrection.addT (0, 0, 0) (0, 0, 0) = (0, 0, 0) := by
      unfold BandFillingCorrection.addT; norm_num
    simp only [List.foldl_cons, ha, hz]
    exact ih (fun x hx => h x (List.mem_cons_of_mem a hx))

/-- C8 (amended): the band-filling correction and both free-carrier counts
are exactly 0 for a spectrum with at most two spin channels in which every
occupation equals the ideal host occupation value, provided additionally
that every state with nonzero occupation lies at or below the shifted CBM
minus the resolution (without that proviso, occupied states above the
shifted CBM are counted as free electrons even at the host occupation). -/
theorem bandfill_zero_when_uniform_and_gapped (ev : List (List (List (ℚ × ℚ))))
    (w : List ℚ) (potalign vbm cbm resolution core sf : ℚ)
    (hcore : BandFillingCorrection.coreOccupation ev = .ok core)
    (hsf : BandFillingCorrection.spinFactor ev.length core = .ok sf)
    (hocc : ∀ ss ∈ ev, ∀ k ∈ ss, ∀ p ∈ k, p.2 = core)
    (hcb : ∀ ss ∈ ev, ∀ k ∈ ss, ∀ p ∈ k, p.2 = 0 ∨ p.1 ≤ potalign + cbm - resolution) :
    BandFillingCorrection.perform_bandfill_corr ev w potalign vbm cbm resolution
      = .ok (0, 0, 0) := by
  have hspin : ∀ ss ∈ ev, BandFillingCorrection.spinContrib core sf resolution
      (potalign + cbm) (potalign + vbm) ss w = (0, 0, 0) := by
    intro ss hss
    unfold BandFillingCorrection.spinContrib
    apply foldl_addT_zero
    intro x hx
    obtain ⟨kw, hkw, hmap⟩ := List.mem_map.mp hx
    have hk : kw.1 ∈ ss := (List.of_mem_zip hkw).1
    subst hmap
    unfold BandFillingCorrection.kptContrib
    apply foldl_addT_zero
    intro y hy
    obtain ⟨p, hp, hpy⟩ := List.mem_map.mp hy
    subst hpy
    exact stateContrib_zero core sf resolution (potalign + cbm) (potalign + vbm) kw.2 p
      (hocc ss hss kw.1 hk p hp) (hcb ss hss kw.1 hk p hp)
  have htot : (ev.map (fun ss => BandFillingCorrection.spinContrib core sf resolution
      (potalign + cbm) (potalign + vbm) ss w)).foldl BandFillingCorrection.addT (0, 0, 0)
      = (0, 0, 0) := by
    apply foldl_addT_zero
    intro x hx
    obtain ⟨ss, hss, hmap⟩ := List.mem_map.mp hx
    subst hmap
    exact hspin ss hss
  simp only [BandFillingCorrection.perform_bandfill_corr]
  rw [hcore, except_ok_bind, hsf, except_ok_bind, htot]
  simp

/-- Witness for C8 (amended) on a one-state spectrum with host occupation 1
below the gap. -/
theorem bandfill_zero_when_uniform_and_gapped_witness :
    BandFillingCorrection.perform_bandfill_corr [[[(0, 1)]]] [1] 0 0 5 (1/100)
      = .ok (0, 0, 0) :=
  bandfill_zero_when_uniform_and_gapped [[[(0, 1)]]] [1] 0 0 5 (1/100) 1 2
    (by with_unfolding_all rfl) (by with_unfolding_all rfl)
    (by with_unfolding_all decide) (by with_unfolding_all decide)

/-- C10: an eigenvalue dictionary with more than two spin channels makes the
band-filling computation raise and return no correction; with one channel
whose sampled core occupation equals 1 the spin multiplicity factor is 2,
and with two channels it is 1. -/
theorem bandfill_spin_channel_policy (ev : List (List (List (ℚ × ℚ)))) (w : List ℚ)
    (potalign vbm cbm resolution core : ℚ) :
    (2 < ev.length → exceptIsErr (BandFillingCorrection.perform_bandfill_corr ev w
      potalign vbm cbm resolution) = true) ∧
    (ev.length = 1 → core = 1 → BandFillingCorrection.spinFactor ev.length core = .ok 2) ∧
    (ev.length = 2 → BandFillingCorrection.spinFactor ev.length core = .ok 1) := by
  refine ⟨?_, ?_, ?_⟩
  · intro hl
    simp only [BandFillingCorrection.perform_bandfill_corr]
    cases hc : BandFillingCorrection.coreOccupation ev with
    | error e => rfl
    | ok c =>
      rw [except_ok_bind]
      have h1 : ¬ ev.length = 1 := by omega
      have h2 : ¬ ev.length = 2 := by omega
      unfold BandFillingCorrection.spinFactor
      rw [if_neg h1, if_neg h2]
      rfl
  · intro hl hcore
    rw [hl, hcore]
    unfold BandFillingCorrection.spinFactor
    norm_num
  · intro hl
    rw [hl]
    rfl

/-- Witness for C10 at three concrete channel counts. -/
theorem bandfill_spin_channel_policy_witness :
    exceptIsErr (BandFillingCorrection.perform_bandfill_corr
      [[[(0, 1)]], [[(0, 1)]], [[(0, 1)]]] [1] 0 0 5 (1/100)) = true ∧
    BandFillingCorrection.spinFactor 1 1 = .ok 2 ∧
    BandFillingCorrection.spinFactor 2 1 = .ok 1 := by
  refine ⟨?_, ?_, ?_⟩
  · exact (bandfill_spin_channel_policy [[[(0, 1)]], [[(0, 1)]], [[(0, 1)]]] [1]
      0 0 5 (1/100) 1).1 (by norm_num)
  · exact (bandfill_spin_channel_policy [[[(0, 1)]]] [1] 0 0 5 (1/100) 1).2.1 rfl rfl
  · exact (bandfill_spin_channel_policy [[[(0, 1)]], [[(0, 1)]]] [1] 0 0 5 (1/100) 1).2.2 rfl

/-- C1: for every defect entry with charge equal to 0, the Freysoldt
correction's electrostatic and potential-alignment energies and the Kumagai
correction's electrostatic and potential-alignment energies returned by
`get_correction` are all exactly 0, and the entry's `potalign` parameter is
set to 0. -/
theorem charge_zero_gives_zero_corrections
    (E : FreyEnv) (flat : FLattice) (dielectric madetol ecut : ℚ)
    (grids bulks defAvgLists : List (List ℚ)) (ffrac : V3) (rf : FreysoldtCorrection.FreyRes)
    (K : KEnv) (kdiel : M3) (klat : FLattice) (bAvgs dAvgs : List ℚ)
    (matching : List (ℤ × ℤ)) (sGeoms : List KSiteGeom) (g0 sr0 : Option ℚ)
    (kfrac : V3) (rk : KumagaiCorrection.KRes)
    (hf : FreysoldtCorrection.get_correction E flat dielectric madetol ecut grids bulks
      defAvgLists ffrac 0 = .ok rf)
    (hk : KumagaiCorrection.get_correction K kdiel klat bAvgs dAvgs matching sGeoms 0
      g0 sr0 kfrac = .ok rk) :
    rf.es = 0 ∧ rf.potCorr = 0 ∧ rf.potalign = 0 ∧
    rk.es = 0 ∧ rk.potCorr = 0 ∧ rk.potalign = 0 := by
  obtain ⟨es, pots, h1, h2, h3⟩ :=
    FreysoldtCorrection.frey_get_correction_ok E flat dielectric madetol ecut grids bulks
      defAvgLists ffrac 0 rf hf
  have hes : es = 0 :=
    FreysoldtCorrection.perform_es_corr_zero E flat dielectric madetol ecut es h1
  have hpots : ∀ x ∈ pots, x = 0 := by
    intro x hx
    obtain ⟨t, _, ht⟩ := exceptMapList_ok_mem _ _ _ h2 x hx
    exact FreysoldtCorrection.perform_pot_corr_zero E flat dielectric t.1.1 t.1.2 t.2.1
      ffrac t.2.2 madetol 1 x ht
  have hmean : npMean pots = 0 := npMean_zero pots hpots
  obtain ⟨esSum, dUse, siteList, pr, _, k2, k3⟩ :=
    KumagaiCorrection.kum_get_correction_ok K kdiel klat bAvgs dAvgs matching sGeoms 0
      g0 sr0 kfrac rk hk
  obtain ⟨_, p2, _⟩ :=
    KumagaiCorrection.perform_pot_corr_ok K kdiel klat kfrac siteList
      (KumagaiCorrection.pyOrElse sr0 K.ws_radius) 0 dUse.rVecs dUse.gVecs
      (KumagaiCorrection.pyOrElse g0 K.tune_gamma) pr k2
  subst h3
  subst k3
  refine ⟨hes, hmean, by simp, by norm_num, ?_, by simp⟩
  show pr.potCorr = 0
  rw [p2]
  ring

/-- Witness for C1: a concrete zero-charge entry on which both embedded
`get_correction` computations succeed and return zeros. -/
theorem charge_zero_gives_zero_corrections_witness :
    FreysoldtCorrection.get_correction Witness.wFreyEnv Witness.wLat 1 (1/10000) 520
      [Witness.wGrid, Witness.wGrid, Witness.wGrid] [[0,0],[0,0],[0,0]] [[0,0],[0,0],[0,0]]
      V3.zero 0 = .ok ⟨0, 0, 0⟩ ∧
    KumagaiCorrection.get_correction Witness.wKEnv M3.identity Witness.wLat [] [] [] [] 0
      (some 1) (some 1) V3.zero = .ok ⟨0, 0, 0, 0⟩ ∧
    ((0:ℚ) = 0 ∧ (0:ℚ) = 0 ∧ (0:ℚ) = 0 ∧ (0:ℚ) = 0 ∧ (0:ℚ) = 0 ∧ (0:ℚ) = 0) := by
  have hf : FreysoldtCorrection.get_correction Witness.wFreyEnv Witness.wLat 1 (1/10000) 520
      [Witness.wGrid, Witness.wGrid, Witness.wGrid] [[0,0],[0,0],[0,0]] [[0,0],[0,0],[0,0]]
      V3.zero 0 = .ok ⟨0, 0, 0⟩ := by with_unfolding_all rfl
  have hk : KumagaiCorrection.get_correction Witness.wKEnv M3.identity Witness.wLat [] [] [] [] 0
      (some 1) (some 1) V3.zero = .ok ⟨0, 0, 0, 0⟩ := by with_unfolding_all rfl
  exact ⟨hf, hk,
    charge_zero_gives_zero_corrections Witness.wFreyEnv Witness.wLat 1 (1/10000) 520
      [Witness.wGrid, Witness.wGrid, Witness.wGrid] [[0,0],[0,0],[0,0]] [[0,0],[0,0],[0,0]]
      V3.zero ⟨0, 0, 0⟩ Witness.wKEnv M3.identity Witness.wLat [] [] [] []
      (some 1) (some 1) V3.zero ⟨0, 0, 0, 0⟩ hf hk⟩

end PymatgenDefects
